import Mathlib

/-!
# Verification of the Drain log-template miner and the RAG retrieval orchestrator

Shallow embedding of `src/drain_parser.py` and the merge/ranking core of
`src/rag_framework.py` (together with the collaborator contracts of
`src/database.py`), followed by theorems settling the frozen claims.

Modelling conventions:
* Python strings are Lean `String`s; character-level operations go through
  `String.toList`.
* Python floats used as scores (`0.9`, `0.5`, similarity ratios) are modelled
  as rationals `ℚ`; embedding vectors (`numpy` float arrays) as lists of
  reals `ℝ`.
* Python dicts (insertion-ordered) are association lists with
  replace-in-place / append-at-end update semantics.
* The sqlite `templates` table of `incidents.db` (the Template Catalog) is an
  explicit `Catalog` state threaded through `parse`; a raised storage
  exception is modelled by a `fail` flag (the code catches the exception,
  prints, and substitutes the dummy id `0`).
-/

namespace LogResponder

/-! ## Tokenizer (`DrainParser._tokenize`) -/

/-- `re.match(r'^\d+$', token)`: the token is a non-empty all-digit string. -/
def isNumTok (s : String) : Bool :=
  !s.toList.isEmpty && s.toList.all (·.isDigit)

/-- Split a character list on `.` keeping empty pieces, as `str.split('.')`
would; used to decide the dotted-quad regex. -/
def splitOnDot : List Char → List (List Char)
  | [] => [[]]
  | c :: cs =>
    if c = '.' then [] :: splitOnDot cs
    else
      match splitOnDot cs with
      | [] => [[c]]
      | p :: ps => (c :: p) :: ps

/-- `re.match(r'^\d+\.\d+\.\d+\.\d+$', token)`: exactly four non-empty
all-digit runs separated by dots. -/
def isIPTok (s : String) : Bool :=
  let parts := splitOnDot s.toList
  parts.length = 4 && parts.all (fun p => !p.isEmpty && p.all (·.isDigit))

def isHexDigitChar (c : Char) : Bool :=
  c.isDigit || ('a' ≤ c && c ≤ 'f') || ('A' ≤ c && c ≤ 'F')

/-- `re.match(r'^0x[0-9a-fA-F]+$', token)`. -/
def isHexTok (s : String) : Bool :=
  match s.toList with
  | '0' :: 'x' :: rest => !rest.isEmpty && rest.all isHexDigitChar
  | _ => false

/-- `'/' in token or '\\' in token`. -/
def isPathTok (s : String) : Bool :=
  s.toList.contains '/' || s.toList.contains '\\'

/-- One step of the token-masking loop in `DrainParser._tokenize`. -/
def maskToken (t : String) : String :=
  if isNumTok t then "<NUM>"
  else if isIPTok t then "<IP>"
  else if isHexTok t then "<HEX>"
  else if isPathTok t then "<PATH>"
  else t

/-- `str.split()` with no argument: split on whitespace runs, dropping empty
pieces (leading/trailing whitespace is ignored, so the preceding `strip()` in
the source is a no-op for the split). -/
def wsSplitAux : List Char → List Char → List String
  | [], [] => []
  | [], acc => [String.mk acc.reverse]
  | c :: cs, acc =>
    if c.isWhitespace then
      if acc.isEmpty then wsSplitAux cs []
      else String.mk acc.reverse :: wsSplitAux cs []
    else wsSplitAux cs (c :: acc)

def pySplit (s : String) : List String :=
  wsSplitAux s.toList []

/-- `DrainParser._tokenize`: whitespace split, then mask `<NUM>`, `<IP>`,
`<HEX>`, `<PATH>` in that priority order. -/
def tokenize (log_line : String) : List String :=
  (pySplit log_line).map maskToken

/-! ## Jaccard similarity (`DrainParser._calculate_similarity`) -/

/-- `DrainParser._calculate_similarity`: Jaccard similarity of the two token
sets, `1.0` when both sets are empty, `0.0` on an empty union. -/
def calculateSimilarity (tokens1 tokens2 : List String) : ℚ :=
  let s1 := tokens1.toFinset
  let s2 := tokens2.toFinset
  if s1.card = 0 ∧ s2.card = 0 then 1
  else
    let inter := (s1 ∩ s2).card
    let union := (s1 ∪ s2).card
    if 0 < union then mkRat inter union else 0

/-! ## The Drain tree -/

/-- One entry of `DrainNode.log_groups`. -/
structure LogGroup where
  template : String
  log_ids : List Nat
  frequency : Nat
  example_line : String
deriving Repr, DecidableEq

/-- `DrainNode`: `depth` and `token` are stored exactly as in the source
(the algorithms never read them back); `children` models the insertion-ordered
Python dict `token ↦ child`. -/
inductive DrainNode : Type where
  | mk (depth : Nat) (token : Option String) (children : List (String × DrainNode))
       (log_groups : List LogGroup) : DrainNode

def DrainNode.depth : DrainNode → Nat
  | .mk d _ _ _ => d

def DrainNode.token : DrainNode → Option String
  | .mk _ t _ _ => t

def DrainNode.children : DrainNode → List (String × DrainNode)
  | .mk _ _ c _ => c

def DrainNode.log_groups : DrainNode → List LogGroup
  | .mk _ _ _ g => g

/-- Python dict read `d[k]` / `k in d`. -/
def lookupChild : List (String × DrainNode) → String → Option DrainNode
  | [], _ => none
  | (k, v) :: rest, key => if k = key then some v else lookupChild rest key

/-- Python dict write `d[k] = v`: replace in place, or append at the end when
the key is new. -/
def setChild : List (String × DrainNode) → String → DrainNode → List (String × DrainNode)
  | [], k, v => [(k, v)]
  | (k', v') :: rest, k, v =>
    if k' = k then (k, v) :: rest else (k', v') :: setChild rest k v

/-- `DrainNode.add_log_group`: bump the first group with an identical template
string, otherwise append a fresh group. -/
def addLogGroup (groups : List LogGroup) (log_id : Nat) (log_line template : String) :
    List LogGroup :=
  match groups with
  | [] => [⟨template, [log_id], 1, log_line⟩]
  | g :: rest =>
    if g.template = template then
      { g with log_ids := g.log_ids ++ [log_id], frequency := g.frequency + 1 } :: rest
    else g :: addLogGroup rest log_id log_line template

/-- The candidate loop of `DrainParser._find_best_match` at a leaf:
`best_match`/`best_similarity` scan with the strict-improvement-and-threshold
test `similarity > best_similarity and similarity >= st`. -/
def scanGroups (st : ℚ) (tokens : List String) :
    List LogGroup → Option LogGroup → ℚ → Option LogGroup
  | [], best, _ => best
  | g :: rest, best, bestSim =>
    let sim := calculateSimilarity tokens (tokenize g.template)
    if bestSim < sim ∧ st ≤ sim then scanGroups st tokens rest (some g) sim
    else scanGroups st tokens rest best bestSim

/-- `DrainParser._find_best_match`: descend one token per level, exact child
before the `<*>` wildcard child, scanning the log groups at leaf depth (or
when tokens run out). -/
def findBestMatch (D : Nat) (st : ℚ) : List String → DrainNode → Nat → Option LogGroup
  | [], node, _ =>
    if node.log_groups.isEmpty then none
    else scanGroups st [] node.log_groups none 0
  | t :: rest, node, depth =>
    if D ≤ depth then
      if node.log_groups.isEmpty then none
      else scanGroups st (t :: rest) node.log_groups none 0
    else
      let exactRes :=
        match lookupChild node.children t with
        | some c => findBestMatch D st rest c (depth + 1)
        | none => none
      match exactRes with
      | some m => some m
      | none =>
        match lookupChild node.children "<*>" with
        | some c => findBestMatch D st rest c (depth + 1)
        | none => none

/-- `DrainParser._add_to_tree`: at leaf depth (or exhausted tokens) add to the
log groups; otherwise pick the current token — substituting `<*>` once the
node's fanout reached `max_child` — create the child if missing, and recurse. -/
def addToTree (D maxChild : Nat) (log_id : Nat) (log_line template : String) :
    List String → DrainNode → Nat → DrainNode
  | [], node, _ =>
    .mk node.depth node.token node.children (addLogGroup node.log_groups log_id log_line template)
  | t :: rest, node, depth =>
    if D ≤ depth then
      .mk node.depth node.token node.children (addLogGroup node.log_groups log_id log_line template)
    else
      let current := if maxChild ≤ node.children.length then "<*>" else t
      let child :=
        match lookupChild node.children current with
        | some c => c
        | none => DrainNode.mk (depth + 1) (some current) [] []
      let child' := addToTree D maxChild log_id log_line template rest child (depth + 1)
      .mk node.depth node.token (setChild node.children current child') node.log_groups

/-! ## Template Catalog (the sqlite `templates` table) -/

/-- The `templates` table: rows `(template_pattern, template_id, frequency)`
plus the AUTOINCREMENT counter (ids start at 1). -/
structure Catalog where
  entries : List (String × Nat × Nat)
  nextId : Nat
deriving Repr, DecidableEq

def catalogFind : List (String × Nat × Nat) → String → Option (Nat × Nat)
  | [], _ => none
  | (p, i, f) :: rest, pat => if p = pat then some (i, f) else catalogFind rest pat

/-- `UPDATE templates SET frequency = frequency + 1` on the matching row. -/
def catalogIncr : List (String × Nat × Nat) → String → List (String × Nat × Nat)
  | [], _ => []
  | (p, i, f) :: rest, pat =>
    if p = pat then (p, i, f + 1) :: rest else (p, i, f) :: catalogIncr rest pat

/-- The committed effect of `DrainParser._get_or_create_template_id`:
increment the frequency of an existing pattern, or insert a fresh row with
frequency 1 and the next id. -/
def Catalog.getOrCreate (c : Catalog) (pat : String) : Nat × Catalog :=
  match catalogFind c.entries pat with
  | some (i, _) => (i, ⟨catalogIncr c.entries pat, c.nextId⟩)
  | none => (c.nextId, ⟨c.entries ++ [(pat, c.nextId, 1)], c.nextId + 1⟩)

/-- `DrainParser._get_or_create_template_id` with its `except` handler: when
the sqlite write raises (`fail = true`) the exception is swallowed, the dummy
id `0` is returned, and the uncommitted transaction leaves the table
unchanged. -/
def getOrCreateTemplateId (fail : Bool) (c : Catalog) (pat : String) : Nat × Catalog :=
  if fail then (0, c) else c.getOrCreate pat

/-! ## The parser (`DrainParser.parse`) -/

def cacheLookup : List (String × String) → String → Option String
  | [], _ => none
  | (k, v) :: rest, key => if k = key then some v else cacheLookup rest key

/-- The new-template construction in `DrainParser.parse`: placeholders kept
verbatim, every other token truncated to its first 8 characters. -/
def truncateTok (t : String) : String :=
  if t = "<NUM>" ∨ t = "<IP>" ∨ t = "<HEX>" ∨ t = "<PATH>" then t
  else String.mk (t.toList.take 8)

def buildTemplate (tokens : List String) : String :=
  String.intercalate " " (tokens.map truncateTok)

structure DrainParser where
  depth : Nat
  st : ℚ
  max_child : Nat
  root : DrainNode
  template_cache : List (String × String)
  catalog : Catalog

/-- `DrainParser()` with the defaults `depth=4, st=0.5, max_child=100`, an
empty tree, an empty cache, and an empty `templates` table. -/
def DrainParser.init : DrainParser :=
  ⟨4, mkRat 1 2, 100, DrainNode.mk 0 none [] [], [], ⟨[], 1⟩⟩

/-- `DrainParser.parse`: cache hit, else best-match lookup, else build a new
template and insert it into the tree; every path consults the catalog.
`fail` says whether the catalog's sqlite write raises on this call. -/
def DrainParser.parse (p : DrainParser) (fail : Bool) (log_line : String)
    (log_id : Option Nat) : (String × Nat) × DrainParser :=
  match cacheLookup p.template_cache log_line with
  | some template =>
    let (tid, cat') := getOrCreateTemplateId fail p.catalog template
    ((template, tid), { p with catalog := cat' })
  | none =>
    let tokens := tokenize log_line
    match findBestMatch p.depth p.st tokens p.root 0 with
    | some bm =>
      let template := bm.template
      let (tid, cat') := getOrCreateTemplateId fail p.catalog template
      ((template, tid),
        { p with catalog := cat',
                 template_cache := p.template_cache ++ [(log_line, template)] })
    | none =>
      let template := buildTemplate tokens
      let (tid, cat') := getOrCreateTemplateId fail p.catalog template
      let lid := log_id.getD 0
      let root' := addToTree p.depth p.max_child lid log_line template tokens p.root 0
      ((template, tid),
        { p with catalog := cat', root := root',
                 template_cache := p.template_cache ++ [(log_line, template)] })

/-! ## Retrieval orchestrator (`RAGRetriever.retrieve_relevant_logs`) -/

/-- A row of the `logs` table as returned by the storage collaborator
(`get_logs_by_template_id` / `search_logs_by_pattern`). Timestamps are ISO
strings whose lexicographic order is chronological; they are modelled by a
`Nat` with the same order. -/
structure DbLog where
  log_id : Nat
  timestamp : Nat
  log_line : String
deriving Repr, DecidableEq

/-- A retrieval result dict: `{log_id, timestamp, log_line, similarity,
retrieval_method}`. -/
structure LogRecord where
  log_id : Nat
  timestamp : Nat
  log_line : String
  similarity : ℚ
  retrieval_method : String
deriving Repr, DecidableEq

/-- `re` word characters `[a-zA-Z0-9_]`. -/
def isWordChar (c : Char) : Bool :=
  c.isAlpha || c.isDigit || c = '_'

/-- Maximal runs of word characters of a string. -/
def wordRunsAux : List Char → List Char → List (List Char)
  | [], [] => []
  | [], acc => [acc.reverse]
  | c :: cs, acc =>
    if isWordChar c then wordRunsAux cs (c :: acc)
    else if acc.isEmpty then wordRunsAux cs []
    else acc.reverse :: wordRunsAux cs []

/-- `str.lower()`, character by character. -/
def pyToLower (s : String) : String :=
  String.mk (s.toList.map Char.toLower)

/-- `re.findall(r'\b[a-zA-Z]{3,}\b', query.lower())`: the maximal word-char
runs of the lowered query that are purely alphabetic and at least 3 long
(a run touching a digit or underscore has no word boundary and is skipped). -/
def extractKeywords (query : String) : List String :=
  ((wordRunsAux (pyToLower query).toList []).filter
    (fun w => decide (3 ≤ w.length) && w.all (·.isAlpha))).map String.mk

/-- Python dict read `all_logs.get(log_id)` / `log_id in all_logs`. -/
def dictFind : List (Nat × LogRecord) → Nat → Option LogRecord
  | [], _ => none
  | (k, v) :: rest, key => if k = key then some v else dictFind rest key

/-- Python dict write `all_logs[log_id] = rec`. -/
def dictInsert : List (Nat × LogRecord) → Nat → LogRecord → List (Nat × LogRecord)
  | [], k, v => [(k, v)]
  | (k', v') :: rest, k, v =>
    if k' = k then (k, v) :: rest else (k', v') :: dictInsert rest k v

/-- `{**log, 'similarity': 0.9, 'retrieval_method': 'template'}`. -/
def tmplRecord (log : DbLog) : LogRecord :=
  ⟨log.log_id, log.timestamp, log.log_line, mkRat 9 10, "template"⟩

/-- `{**log, 'similarity': 0.5, 'retrieval_method': 'keyword'}`. -/
def kwRecord (log : DbLog) : LogRecord :=
  ⟨log.log_id, log.timestamp, log.log_line, mkRat 1 2, "keyword"⟩

/-- The template-log merge loop: skip falsy (0) ids, then overwrite. -/
def addTemplateLogs : List (Nat × LogRecord) → List DbLog → List (Nat × LogRecord)
  | m, [] => m
  | m, log :: rest =>
    addTemplateLogs
      (if log.log_id ≠ 0 then dictInsert m log.log_id (tmplRecord log) else m) rest

/-- The semantic-log merge loop: insert when the id is new or the semantic
similarity strictly beats the stored one. -/
def addSemanticLogs : List (Nat × LogRecord) → List LogRecord → List (Nat × LogRecord)
  | m, [] => m
  | m, log :: rest =>
    addSemanticLogs
      (match dictFind m log.log_id with
       | none => dictInsert m log.log_id log
       | some old =>
         if old.similarity < log.similarity then dictInsert m log.log_id log else m)
      rest

/-- The keyword-log merge loop: only truthy ids not already present. -/
def addKeywordLogs : List (Nat × LogRecord) → List DbLog → List (Nat × LogRecord)
  | m, [] => m
  | m, log :: rest =>
    addKeywordLogs
      (if log.log_id ≠ 0 ∧ dictFind m log.log_id = none then
        dictInsert m log.log_id (kwRecord log)
       else m)
      rest

/-- Step 3 of `retrieve_relevant_logs`: the keyword fallback is computed only
when steps 1 and 2 both produced nothing; up to 3 extracted keywords, up to 5
`search_logs_by_pattern` hits each, accumulated by `list.extend`. -/
def keywordFallback (query : String) (template_logs : List DbLog)
    (semantic_logs : List LogRecord) (search : String → List DbLog) : List DbLog :=
  if semantic_logs = [] ∧ template_logs = [] then
    ((extractKeywords query).take 3).foldl (fun acc kw => acc ++ (search kw).take 5) []
  else []

/-- The deduplicating merge (`all_logs` construction) of
`retrieve_relevant_logs`: template logs, then semantic logs, then keyword
logs. -/
def combineLogs (template_logs : List DbLog) (semantic_logs : List LogRecord)
    (keyword_logs : List DbLog) : List (Nat × LogRecord) :=
  addKeywordLogs (addSemanticLogs (addTemplateLogs [] template_logs) semantic_logs)
    keyword_logs

/-- The order of the final `sorted(..., key=similarity, reverse=True)`:
`a` may precede `b` when `a`'s similarity is at least `b`'s. -/
def simGE (a b : LogRecord) : Prop :=
  b.similarity ≤ a.similarity

instance : DecidableRel simGE := fun a b =>
  inferInstanceAs (Decidable (b.similarity ≤ a.similarity))

instance : IsTotal LogRecord simGE :=
  ⟨fun a b => le_total b.similarity a.similarity⟩

instance : IsTrans LogRecord simGE :=
  ⟨fun _ _ _ h1 h2 => le_trans h2 h1⟩

/-- `RAGRetriever.retrieve_relevant_logs`, taking the collaborator outputs as
inputs: `template_logs` is step 1's db result, `semantic_logs` step 2's scored
list (tagged `semantic` by the source), `search` is
`database.search_logs_by_pattern`. Python's `sorted` is a stable sort, so it
is modelled by (the extensionally equal) stable `List.insertionSort`. -/
def retrieve_relevant_logs (query : String) (template_logs : List DbLog)
    (semantic_logs : List LogRecord) (search : String → List DbLog)
    (top_k : Nat) : List LogRecord :=
  let keyword_logs := keywordFallback query template_logs semantic_logs search
  let all_logs := combineLogs template_logs semantic_logs keyword_logs
  (List.insertionSort simGE (all_logs.map Prod.snd)).take top_k

/-! ## Cosine similarity (`RAGRetriever._cosine_similarity`) -/

/-- `np.dot` on two 1-D arrays. -/
def dotProduct (v1 v2 : List ℝ) : ℝ :=
  ((v1.zip v2).map (fun p => p.1 * p.2)).sum

/-- `np.linalg.norm`: the Euclidean norm. -/
noncomputable def pyNorm (v : List ℝ) : ℝ :=
  Real.sqrt ((v.map (fun x => x * x)).sum)

open Classical in
/-- `RAGRetriever._cosine_similarity` with its zero-norm guard. -/
noncomputable def cosine_similarity (v1 v2 : List ℝ) : ℝ :=
  if pyNorm v1 = 0 ∨ pyNorm v2 = 0 then 0
  else dotProduct v1 v2 / (pyNorm v1 * pyNorm v2)

/-! ## Concrete scenario inputs -/

/-- First line of end-to-end scenario A. -/
def lineA : String := "2024-01-01 10:00:00 ERROR: Connection failed to 192.168.1.1:8080"

/-- Second line of end-to-end scenario A. -/
def lineB : String := "2024-01-01 10:00:01 ERROR: Connection failed to 192.168.1.2:8080"

/-- Substring test (`pat in s` for strings), used to state whether a template
pattern contains a placeholder. -/
def containsTok (s pat : String) : Bool :=
  (List.range (s.toList.length + 1)).any fun i => pat.toList.isPrefixOf (s.toList.drop i)

/-- The parser state after parsing `lineA` and then `lineB` on a fresh parser
(scenario A). -/
def parserAB : DrainParser :=
  ((DrainParser.init.parse false lineA none).2.parse false lineB none).2

/-- The parser state after parsing the same `line` twice on a fresh parser
(with arbitrary per-call database log ids). -/
def parseTwice (line : String) (lid1 lid2 : Option Nat) : DrainParser :=
  ((DrainParser.init.parse false line lid1).2.parse false line lid2).2

/-- The template string `parse` returns for `line` on a fresh parser. -/
def firstTemplate (line : String) : String :=
  (DrainParser.init.parse false line none).1.1

end LogResponder

namespace LogResponder

/-! # Theorems

Helper lemmas, then one theorem per claim (with witnesses and
counterexamples where required). -/

/-- The ratio used in `calculateSimilarity` is exactly the source's
`intersection / union`. -/
theorem mkRat_as_div (a b : ℕ) : mkRat (a : ℤ) b = (a : ℚ) / (b : ℚ) := by
  rw [Rat.mkRat_eq_div]
  push_cast
  ring

/-- C8: For every two token sequences, the Jaccard similarity computed by
`_calculate_similarity` lies in `[0,1]`, and the similarity of two empty
token sequences is exactly `1`. -/
theorem C8_jaccard_bounds (t1 t2 : List String) :
    0 ≤ calculateSimilarity t1 t2 ∧ calculateSimilarity t1 t2 ≤ 1 ∧
      calculateSimilarity [] [] = 1 := by
  have hsub : (t1.toFinset ∩ t2.toFinset).card ≤ (t1.toFinset ∪ t2.toFinset).card :=
    Finset.card_le_card Finset.inter_subset_union
  refine ⟨?_, ?_, by simp [calculateSimilarity]⟩
  · simp only [calculateSimilarity]
    split
    · norm_num
    · split
      · rw [mkRat_as_div]
        positivity
      · norm_num
  · simp only [calculateSimilarity]
    split
    · norm_num
    · split
      · rename_i hcond hu
        rw [mkRat_as_div, div_le_one (by exact_mod_cast hu)]
        exact_mod_cast hsub
      · norm_num

theorem sumSq_nonneg (v : List ℝ) : 0 ≤ (v.map (fun x => x * x)).sum := by
  apply List.sum_nonneg
  intro y hy
  rcases List.mem_map.mp hy with ⟨x, _, rfl⟩
  exact mul_self_nonneg x

theorem dotProduct_self (v : List ℝ) :
    dotProduct v v = (v.map (fun x => x * x)).sum := by
  induction v with
  | nil => rfl
  | cons x xs ih =>
    simp only [dotProduct, List.zip_cons_cons, List.map_cons, List.sum_cons] at *
    rw [ih]

/-- C9: cosine similarity equals `dot / (norm * norm)` away from zero norms,
is `0` whenever either norm is zero (the division is never reached there),
and is exactly `1` on any vector of non-zero norm paired with itself. -/
theorem C9_cosine :
    (∀ v1 v2 : List ℝ, pyNorm v1 = 0 ∨ pyNorm v2 = 0 → cosine_similarity v1 v2 = 0) ∧
    (∀ v1 v2 : List ℝ, pyNorm v1 ≠ 0 → pyNorm v2 ≠ 0 →
       cosine_similarity v1 v2 = dotProduct v1 v2 / (pyNorm v1 * pyNorm v2)) ∧
    (∀ v : List ℝ, pyNorm v ≠ 0 → cosine_similarity v v = 1) := by
  have hzero : ∀ v1 v2 : List ℝ, pyNorm v1 = 0 ∨ pyNorm v2 = 0 →
      cosine_similarity v1 v2 = 0 := by
    intro v1 v2 h
    unfold cosine_similarity
    rw [if_pos h]
  have hform : ∀ v1 v2 : List ℝ, pyNorm v1 ≠ 0 → pyNorm v2 ≠ 0 →
      cosine_similarity v1 v2 = dotProduct v1 v2 / (pyNorm v1 * pyNorm v2) := by
    intro v1 v2 h1 h2
    unfold cosine_similarity
    rw [if_neg (not_or.mpr ⟨h1, h2⟩)]
  refine ⟨hzero, hform, fun v h => ?_⟩
  have hs : 0 ≤ (v.map (fun x => x * x)).sum := sumSq_nonneg v
  have hpos : 0 < (v.map (fun x => x * x)).sum := by
    rcases lt_or_eq_of_le hs with h' | h'
    · exact h'
    · exact absurd (by rw [pyNorm, ← h', Real.sqrt_zero]) h
  rw [hform v v h h, dotProduct_self, pyNorm, Real.mul_self_sqrt hs,
    div_self (ne_of_gt hpos)]

/-- Witness for C9 at `v = [1]` (non-zero norm, self-similarity `1`) and at
the zero vector `[0]` against `[1]` (zero norm, similarity `0`). -/
theorem C9_cosine_witness :
    pyNorm [(1 : ℝ)] ≠ 0 ∧ cosine_similarity [(1 : ℝ)] [(1 : ℝ)] = 1 ∧
      (pyNorm ([0] : List ℝ) = 0 ∨ pyNorm [(1 : ℝ)] = 0) ∧
      cosine_similarity ([0] : List ℝ) [(1 : ℝ)] = 0 := by
  have h1 : pyNorm [(1 : ℝ)] = 1 := by
    rw [pyNorm]
    norm_num
  have h0 : pyNorm ([0] : List ℝ) = 0 := by
    rw [pyNorm]
    norm_num
  have hne : pyNorm [(1 : ℝ)] ≠ 0 := by
    rw [h1]
    norm_num
  exact ⟨hne, C9_cosine.2.2 [1] hne, Or.inl h0, C9_cosine.1 [0] [1] (Or.inl h0)⟩

/-! ## Drain tree lemmas -/

/-- A best-match search over a node with no children and no log groups finds
nothing. -/
theorem findBestMatch_bare (D : Nat) (st : ℚ) (tokens : List String)
    (d : Nat) (tok : Option String) (depth : Nat) :
    findBestMatch D st tokens (DrainNode.mk d tok [] []) depth = none := by
  cases tokens with
  | nil => rfl
  | cons t rest =>
    simp only [findBestMatch, DrainNode.children, DrainNode.log_groups, lookupChild]
    split <;> rfl

/-- C1 (counterexample): parsing the two scenario-A lines does NOT collapse
them to a single template whose pattern contains `<IP>` with frequency 2 —
the address tokens carry a `:8080` port so the dotted-quad mask never fires,
and the differing timestamp token separates the lines in the tree. -/
theorem C1_counterexample :
    ¬ (parserAB.catalog.entries.length = 1 ∧
       ∀ e ∈ parserAB.catalog.entries, containsTok e.1 "<IP>" = true ∧ e.2.2 = 2) := by
  decide

/-- C1 (amended): the two scenario-A lines produce two distinct templates,
each with catalog frequency 1; neither pattern contains `<IP>` — the address
tokens are kept literal and truncated to the 8-character prefix `192.168.`. -/
theorem C1_amended :
    (parserAB.catalog.entries =
      [("2024-01- 10:00:00 ERROR: Connecti failed to 192.168.", 1, 1),
       ("2024-01- 10:00:01 ERROR: Connecti failed to 192.168.", 2, 1)]) ∧
    containsTok "2024-01- 10:00:00 ERROR: Connecti failed to 192.168." "<IP>" = false ∧
    containsTok "2024-01- 10:00:01 ERROR: Connecti failed to 192.168." "<IP>" = false ∧
    containsTok "2024-01- 10:00:00 ERROR: Connecti failed to 192.168." "192.168." = true := by
  decide

/-- C5: parsing any line twice starting from a fresh parser creates exactly
one catalog template, whose frequency is 2 afterwards (one increment per
parse). -/
theorem C5_parse_twice (line : String) (lid1 lid2 : Option Nat) :
    (parseTwice line lid1 lid2).catalog.entries = [(firstTemplate line, 1, 2)] := by
  have hfb : findBestMatch 4 (mkRat 1 2) (tokenize line) (DrainNode.mk 0 none [] []) 0 =
      none := findBestMatch_bare 4 (mkRat 1 2) (tokenize line) 0 none 0
  simp [parseTwice, firstTemplate, DrainParser.parse, DrainParser.init, cacheLookup, hfb,
    getOrCreateTemplateId, Catalog.getOrCreate, catalogFind, catalogIncr]

/-- C6: a catalog (sqlite) write failure during `parse` is absorbed — parse
still returns the same template string with the dummy id 0, and the in-memory
tree after the call is identical to the success case. -/
theorem C6_storage_failure (p : DrainParser) (line : String) (lid : Option Nat) :
    (p.parse true line lid).1.2 = 0 ∧
    (p.parse true line lid).1.1 = (p.parse false line lid).1.1 ∧
    (p.parse true line lid).2.root = (p.parse false line lid).2.root ∧
    (p.parse true line lid).2.template_cache = (p.parse false line lid).2.template_cache := by
  unfold DrainParser.parse
  cases h1 : cacheLookup p.template_cache line with
  | some t => simp [h1, getOrCreateTemplateId]
  | none =>
    cases h2 : findBestMatch p.depth p.st (tokenize line) p.root 0 with
    | some g => simp [h1, h2, getOrCreateTemplateId]
    | none => simp [h1, h2, getOrCreateTemplateId]

/-- At an internal node the search returns the exact-token child's result
whenever that result is a match (the wildcard child is not consulted). -/
theorem findBestMatch_cons_exact (D : Nat) (st : ℚ) (t : String) (rest : List String)
    (node : DrainNode) (depth : Nat) (c : DrainNode) (m : LogGroup)
    (hd : depth < D) (hc : lookupChild node.children t = some c)
    (hr : findBestMatch D st rest c (depth + 1) = some m) :
    findBestMatch D st (t :: rest) node depth = some m := by
  have hnd : ¬ D ≤ depth := Nat.not_le.mpr hd
  simp only [findBestMatch, if_neg hnd, hc, hr]

/-- At an internal node whose exact-token subtree yields no match, the search
returns the wildcard child's match. -/
theorem findBestMatch_cons_wild (D : Nat) (st : ℚ) (t : String) (rest : List String)
    (node : DrainNode) (depth : Nat) (c : DrainNode) (m : LogGroup)
    (hd : depth < D)
    (he : ∀ c0, lookupChild node.children t = some c0 →
        findBestMatch D st rest c0 (depth + 1) = none)
    (hw : lookupChild node.children "<*>" = some c)
    (hr : findBestMatch D st rest c (depth + 1) = some m) :
    findBestMatch D st (t :: rest) node depth = some m := by
  have hnd : ¬ D ≤ depth := Nat.not_le.mpr hd
  cases hc : lookupChild node.children t with
  | none => simp only [findBestMatch, if_neg hnd, hc, hw, hr]
  | some c0 => simp only [findBestMatch, if_neg hnd, hc, he c0 hc, hw, hr]

/-- Any group produced by the leaf scan meets the similarity threshold
(provided the incoming best-so-far already does). -/
theorem scanGroups_sound (st : ℚ) (tokens : List String) :
    ∀ (gs : List LogGroup) (best : Option LogGroup) (bs : ℚ),
      (∀ g, best = some g → st ≤ calculateSimilarity tokens (tokenize g.template)) →
      ∀ g, scanGroups st tokens gs best bs = some g →
        st ≤ calculateSimilarity tokens (tokenize g.template) := by
  intro gs
  induction gs with
  | nil => intro best bs hb g hg; exact hb g hg
  | cons a rest ih =>
    intro best bs hb g hg
    simp only [scanGroups] at hg
    split at hg
    · rename_i hcond
      refine ih (some a) _ (fun g' hg' => ?_) g hg
      cases hg'
      exact hcond.2
    · exact ih best bs hb g hg

/-- Soundness of the recursive search: every returned group meets the
threshold against the token suffix that reached its leaf. -/
theorem findBestMatch_sound (D : Nat) (st : ℚ) :
    ∀ (tokens : List String) (node : DrainNode) (depth : Nat) (m : LogGroup),
      findBestMatch D st tokens node depth = some m →
      ∃ k, k ≤ tokens.length ∧
        st ≤ calculateSimilarity (List.drop k tokens) (tokenize m.template) := by
  intro tokens
  induction tokens with
  | nil =>
    intro node depth m hm
    simp only [findBestMatch] at hm
    split at hm
    · exact absurd hm (by simp)
    · exact ⟨0, Nat.le_refl 0, scanGroups_sound st [] node.log_groups none 0
        (fun g hg => by cases hg) m hm⟩
  | cons t rest ih =>
    intro node depth m hm
    simp only [findBestMatch] at hm
    by_cases hd : D ≤ depth
    · rw [if_pos hd] at hm
      split at hm
      · exact absurd hm (by simp)
      · exact ⟨0, Nat.zero_le _, scanGroups_sound st (t :: rest) node.log_groups none 0
          (fun g hg => by cases hg) m hm⟩
    · rw [if_neg hd] at hm
      cases hex : lookupChild node.children t with
      | some c =>
        cases hr : findBestMatch D st rest c (depth + 1) with
        | some m0 =>
          simp only [hex, hr] at hm
          cases hm
          rcases ih c (depth + 1) m hr with ⟨k, hk, hs⟩
          exact ⟨k + 1, Nat.succ_le_succ hk, by simpa using hs⟩
        | none =>
          simp only [hex, hr] at hm
          cases hw : lookupChild node.children "<*>" with
          | some c2 =>
            simp only [hw] at hm
            rcases ih c2 (depth + 1) m hm with ⟨k, hk, hs⟩
            exact ⟨k + 1, Nat.succ_le_succ hk, by simpa using hs⟩
          | none => rw [hw] at hm; exact absurd hm (by simp)
      | none =>
        simp only [hex] at hm
        cases hw : lookupChild node.children "<*>" with
        | some c2 =>
          simp only [hw] at hm
          rcases ih c2 (depth + 1) m hm with ⟨k, hk, hs⟩
          exact ⟨k + 1, Nat.succ_le_succ hk, by simpa using hs⟩
        | none => rw [hw] at hm; exact absurd hm (by simp)

/-- C7: the read-only best-match lookup (a pure function — it builds no node
and no template) tries the exact-token child before the `<*>` wildcard child
at every level and returns the match of the first subtree that yields one;
any returned group meets or exceeds the similarity threshold `st` at its
leaf. -/
theorem C7_lookup_order (D : Nat) (st : ℚ) :
    (∀ (t : String) (rest : List String) (node : DrainNode) (depth : Nat)
       (c : DrainNode) (m : LogGroup), depth < D →
         lookupChild node.children t = some c →
         findBestMatch D st rest c (depth + 1) = some m →
         findBestMatch D st (t :: rest) node depth = some m) ∧
    (∀ (t : String) (rest : List String) (node : DrainNode) (depth : Nat)
       (c : DrainNode) (m : LogGroup), depth < D →
         (∀ c0, lookupChild node.children t = some c0 →
            findBestMatch D st rest c0 (depth + 1) = none) →
         lookupChild node.children "<*>" = some c →
         findBestMatch D st rest c (depth + 1) = some m →
         findBestMatch D st (t :: rest) node depth = some m) ∧
    (∀ (tokens : List String) (node : DrainNode) (depth : Nat) (m : LogGroup),
       findBestMatch D st tokens node depth = some m →
       ∃ k, k ≤ tokens.length ∧
         st ≤ calculateSimilarity (List.drop k tokens) (tokenize m.template)) :=
  ⟨fun t rest node depth c m hd hc hr =>
      findBestMatch_cons_exact D st t rest node depth c m hd hc hr,
   fun t rest node depth c m hd he hw hr =>
      findBestMatch_cons_wild D st t rest node depth c m hd he hw hr,
   findBestMatch_sound D st⟩

/-- Witness for C7 on a depth-1 tree: the exact child's match is returned,
it meets the threshold, and on a second tree whose exact child is empty the
wildcard child's match is returned. -/
theorem C7_lookup_order_witness :
    findBestMatch 1 (mkRat 1 2) ["alpha", "beta"]
        (DrainNode.mk 0 none
          [("alpha", DrainNode.mk 1 (some "alpha") [] [⟨"alpha beta", [0], 1, "alpha beta"⟩])]
          []) 0 =
      some ⟨"alpha beta", [0], 1, "alpha beta"⟩ ∧
    (∃ k, k ≤ (["alpha", "beta"] : List String).length ∧
       mkRat 1 2 ≤ calculateSimilarity (List.drop k ["alpha", "beta"])
         (tokenize (⟨"alpha beta", [0], 1, "alpha beta"⟩ : LogGroup).template)) ∧
    findBestMatch 1 (mkRat 1 2) ["gamma", "beta"]
        (DrainNode.mk 0 none
          [("gamma", DrainNode.mk 1 (some "gamma") [] []),
           ("<*>", DrainNode.mk 1 (some "<*>") [] [⟨"alpha beta", [0], 1, "alpha beta"⟩])]
          []) 0 =
      some ⟨"alpha beta", [0], 1, "alpha beta"⟩ := by
  refine ⟨?_, ?_, ?_⟩
  · exact (C7_lookup_order 1 (mkRat 1 2)).1 "alpha" ["beta"] _ 0
      (DrainNode.mk 1 (some "alpha") [] [⟨"alpha beta", [0], 1, "alpha beta"⟩])
      ⟨"alpha beta", [0], 1, "alpha beta"⟩ (by decide) rfl (by decide)
  · exact (C7_lookup_order 1 (mkRat 1 2)).2.2 ["alpha", "beta"]
      (DrainNode.mk 0 none
        [("alpha", DrainNode.mk 1 (some "alpha") [] [⟨"alpha beta", [0], 1, "alpha beta"⟩])]
        []) 0 ⟨"alpha beta", [0], 1, "alpha beta"⟩ (by decide)
  · exact (C7_lookup_order 1 (mkRat 1 2)).2.1 "gamma" ["beta"] _ 0
      (DrainNode.mk 1 (some "<*>") [] [⟨"alpha beta", [0], 1, "alpha beta"⟩])
      ⟨"alpha beta", [0], 1, "alpha beta"⟩ (by decide)
      (fun c0 hc0 => by
        simp only [DrainNode.children, lookupChild, if_pos rfl] at hc0
        cases hc0
        rfl)
      rfl (by decide)

/-! ## Insertion at a saturated node -/

theorem lookupChild_setChild_self (cs : List (String × DrainNode)) (k : String)
    (v : DrainNode) : lookupChild (setChild cs k v) k = some v := by
  induction cs with
  | nil => simp [setChild, lookupChild]
  | cons p rest ih =>
    obtain ⟨a, b⟩ := p
    by_cases h : a = k
    · subst h
      simp [setChild, lookupChild]
    · simp [setChild, lookupChild, h, ih]

theorem lookupChild_setChild_ne (cs : List (String × DrainNode)) (k k' : String)
    (v : DrainNode) (h : k' ≠ k) :
    lookupChild (setChild cs k v) k' = lookupChild cs k' := by
  induction cs with
  | nil => simp [setChild, lookupChild, Ne.symm h]
  | cons p rest ih =>
    obtain ⟨a, b⟩ := p
    by_cases ha : a = k
    · subst ha
      have : ¬ a = k' := fun hh => h (hh ▸ rfl)
      simp [setChild, lookupChild, this]
    · by_cases ha' : a = k'
      · subst ha'
        simp [setChild, lookupChild, ha]
      · simp [setChild, lookupChild, ha, ha', ih]

theorem setChild_keys_of_none (cs : List (String × DrainNode)) (k : String)
    (v : DrainNode) (h : lookupChild cs k = none) :
    (setChild cs k v).map Prod.fst = cs.map Prod.fst ++ [k] := by
  induction cs with
  | nil => simp [setChild]
  | cons p rest ih =>
    obtain ⟨a, b⟩ := p
    by_cases ha : a = k
    · subst ha
      simp [lookupChild] at h
    · simp only [lookupChild, if_neg ha] at h
      simp [setChild, ha, ih h]

theorem setChild_keys_of_some (cs : List (String × DrainNode)) (k : String)
    (v c : DrainNode) (h : lookupChild cs k = some c) :
    (setChild cs k v).map Prod.fst = cs.map Prod.fst := by
  induction cs with
  | nil => simp [lookupChild] at h
  | cons p rest ih =>
    obtain ⟨a, b⟩ := p
    by_cases ha : a = k
    · subst ha
      simp [setChild]
    · simp only [lookupChild, if_neg ha] at h
      simp [setChild, ha, ih h]

/-- Every key of `setChild cs k v` is an old key or `k` itself. -/
theorem setChild_keys_subset (cs : List (String × DrainNode)) (k : String)
    (v : DrainNode) (k' : String)
    (h : k' ∈ (setChild cs k v).map Prod.fst) :
    k' ∈ cs.map Prod.fst ∨ k' = k := by
  cases hl : lookupChild cs k with
  | none =>
    rw [setChild_keys_of_none cs k v hl, List.mem_append] at h
    rcases h with h | h
    · exact Or.inl h
    · simp at h
      exact Or.inr h
  | some c =>
    rw [setChild_keys_of_some cs k v c hl] at h
    exact Or.inl h

/-- C10: once a node's fanout has reached `max_child`, insertion substitutes
the wildcard token: non-wildcard children are left untouched, every child key
after the insert is an old key or `<*>`, the descent continues into the
(possibly fresh) wildcard child, and the node's log groups are unchanged —
while the read-only lookup at the same saturated node still follows the
exact-token child. -/
theorem C10_fanout_cap (D maxChild : Nat) (st : ℚ) (lid : Nat) (line tmpl : String) :
    (∀ (t : String) (rest : List String) (node : DrainNode) (depth : Nat),
       depth < D → maxChild ≤ node.children.length →
       ((∀ k, k ≠ "<*>" →
           lookupChild (addToTree D maxChild lid line tmpl (t :: rest) node depth).children k =
             lookupChild node.children k) ∧
        (∀ k', k' ∈ (addToTree D maxChild lid line tmpl (t :: rest) node depth).children.map
            Prod.fst → k' ∈ node.children.map Prod.fst ∨ k' = "<*>") ∧
        lookupChild (addToTree D maxChild lid line tmpl (t :: rest) node depth).children "<*>" =
          some (addToTree D maxChild lid line tmpl rest
            (match lookupChild node.children "<*>" with
             | some c => c
             | none => DrainNode.mk (depth + 1) (some "<*>") [] []) (depth + 1)) ∧
        (addToTree D maxChild lid line tmpl (t :: rest) node depth).log_groups =
          node.log_groups)) ∧
    (∀ (t : String) (rest : List String) (node : DrainNode) (depth : Nat)
       (c : DrainNode) (m : LogGroup), depth < D → maxChild ≤ node.children.length →
       lookupChild node.children t = some c →
       findBestMatch D st rest c (depth + 1) = some m →
       findBestMatch D st (t :: rest) node depth = some m) := by
  constructor
  · intro t rest node depth hd hfull
    have hnd : ¬ D ≤ depth := Nat.not_le.mpr hd
    obtain ⟨nd, ntok, ncs, ngs⟩ := node
    simp only [DrainNode.children] at hfull
    simp only [addToTree, if_neg hnd, if_pos hfull, DrainNode.children, DrainNode.log_groups]
    refine ⟨fun k hk => lookupChild_setChild_ne _ _ _ _ hk,
            fun k' hk' => setChild_keys_subset _ _ _ _ hk',
            lookupChild_setChild_self _ _ _, trivial⟩
  · intro t rest node depth c m hd _ hc hr
    exact findBestMatch_cons_exact D st t rest node depth c m hd hc hr

/-- Witness for C10 at a saturated node (`max_child = 1`, one child): the
non-wildcard child survives unchanged, the insert descends via a fresh `<*>`
child, and lookup still follows the exact child of a saturated node. -/
theorem C10_fanout_cap_witness :
    (lookupChild (addToTree 1 1 7 "raw log" "tmpl" ["delta"]
        (DrainNode.mk 0 none [("gamma", DrainNode.mk 1 (some "gamma") [] [])] []) 0).children
      "gamma" =
      lookupChild (DrainNode.mk 0 none
        [("gamma", DrainNode.mk 1 (some "gamma") [] [])] []).children "gamma") ∧
    (lookupChild (addToTree 1 1 7 "raw log" "tmpl" ["delta"]
        (DrainNode.mk 0 none [("gamma", DrainNode.mk 1 (some "gamma") [] [])] []) 0).children
      "<*>" =
      some (addToTree 1 1 7 "raw log" "tmpl" [] (DrainNode.mk 1 (some "<*>") [] []) 1)) ∧
    findBestMatch 1 (mkRat 1 2) ["a", "a"]
        (DrainNode.mk 0 none [("a", DrainNode.mk 1 (some "a") [] [⟨"a", [1], 1, "a"⟩])] []) 0 =
      some ⟨"a", [1], 1, "a"⟩ := by
  have h := (C10_fanout_cap 1 1 (mkRat 1 2) 7 "raw log" "tmpl").1 "delta" []
    (DrainNode.mk 0 none [("gamma", DrainNode.mk 1 (some "gamma") [] [])] []) 0
    (by decide) (by decide)
  exact ⟨h.1 "gamma" (by decide), h.2.2.1,
    (C10_fanout_cap 1 1 (mkRat 1 2) 7 "raw log" "tmpl").2 "a" ["a"]
      (DrainNode.mk 0 none [("a", DrainNode.mk 1 (some "a") [] [⟨"a", [1], 1, "a"⟩])] []) 0
      (DrainNode.mk 1 (some "a") [] [⟨"a", [1], 1, "a"⟩]) ⟨"a", [1], 1, "a"⟩
      (by decide) (by decide) rfl (by decide)⟩

/-! ## Merge-map (dict) lemmas -/

theorem dictFind_dictInsert_self (m : List (Nat × LogRecord)) (k : Nat) (v : LogRecord) :
    dictFind (dictInsert m k v) k = some v := by
  induction m with
  | nil => simp [dictInsert, dictFind]
  | cons p rest ih =>
    obtain ⟨a, b⟩ := p
    by_cases h : a = k
    · subst h
      simp [dictInsert, dictFind]
    · simp [dictInsert, dictFind, h, ih]

theorem dictFind_dictInsert_ne (m : List (Nat × LogRecord)) (k k' : Nat) (v : LogRecord)
    (h : k' ≠ k) : dictFind (dictInsert m k v) k' = dictFind m k' := by
  induction m with
  | nil => simp [dictInsert, dictFind, Ne.symm h]
  | cons p rest ih =>
    obtain ⟨a, b⟩ := p
    by_cases ha : a = k
    · subst ha
      have hne : ¬ a = k' := fun hh => h (hh ▸ rfl)
      simp [dictInsert, dictFind, hne]
    · by_cases ha' : a = k'
      · subst ha'
        simp [dictInsert, dictFind, ha]
      · simp [dictInsert, dictFind, ha, ha', ih]

theorem mem_dictInsert (m : List (Nat × LogRecord)) (k : Nat) (v : LogRecord)
    (p : Nat × LogRecord) (h : p ∈ dictInsert m k v) : p ∈ m ∨ p = (k, v) := by
  induction m with
  | nil =>
    simp [dictInsert] at h
    exact Or.inr h
  | cons q rest ih =>
    obtain ⟨a, b⟩ := q
    simp only [dictInsert] at h
    split at h
    · rcases List.mem_cons.mp h with h' | h'
      · exact Or.inr h'
      · exact Or.inl (List.mem_cons_of_mem _ h')
    · rcases List.mem_cons.mp h with h' | h'
      · exact Or.inl (h' ▸ List.mem_cons_self _ _)
      · rcases ih h' with h'' | h''
        · exact Or.inl (List.mem_cons_of_mem _ h'')
        · exact Or.inr h''

theorem dictInsert_keys_mem (m : List (Nat × LogRecord)) (k : Nat) (v : LogRecord)
    (a : Nat) (h : a ∈ (dictInsert m k v).map Prod.fst) :
    a ∈ m.map Prod.fst ∨ a = k := by
  rcases List.mem_map.mp h with ⟨p, hp, rfl⟩
  rcases mem_dictInsert m k v p hp with h' | h'
  · exact Or.inl (List.mem_map_of_mem _ h')
  · rw [h']
    exact Or.inr rfl

theorem keysNodup_dictInsert (m : List (Nat × LogRecord)) (k : Nat) (v : LogRecord)
    (h : (m.map Prod.fst).Nodup) : ((dictInsert m k v).map Prod.fst).Nodup := by
  induction m with
  | nil => simp [dictInsert]
  | cons q rest ih =>
    obtain ⟨a, b⟩ := q
    simp only [List.map_cons, List.nodup_cons] at h
    simp only [dictInsert]
    split
    · rename_i ha
      subst ha
      simp only [List.map_cons, List.nodup_cons]
      exact ⟨h.1, h.2⟩
    · rename_i ha
      simp only [List.map_cons, List.nodup_cons]
      refine ⟨fun hmem => ?_, ih h.2⟩
      rcases dictInsert_keys_mem rest k v a hmem with h' | h'
      · exact h.1 h'
      · exact ha (h' ▸ rfl)

theorem dictFind_of_mem (m : List (Nat × LogRecord)) (k : Nat) (v : LogRecord)
    (hnd : (m.map Prod.fst).Nodup) (h : (k, v) ∈ m) : dictFind m k = some v := by
  induction m with
  | nil => simp at h
  | cons q rest ih =>
    obtain ⟨a, b⟩ := q
    simp only [List.map_cons, List.nodup_cons] at hnd
    rcases List.mem_cons.mp h with h' | h'
    · cases h'
      simp [dictFind]
    · have hk : k ∈ rest.map Prod.fst := by
        simpa using List.mem_map_of_mem Prod.fst h'
      have hak : a ≠ k := fun heq => hnd.1 (heq.symm ▸ hk)
      simp [dictFind, hak, ih hnd.2 h']

/-- Every stored record's `log_id` equals its key in the merge map. -/
def SelfKeyed (m : List (Nat × LogRecord)) : Prop :=
  ∀ p ∈ m, (p.2).log_id = p.1

theorem selfKeyed_dictInsert (m : List (Nat × LogRecord)) (k : Nat) (v : LogRecord)
    (hm : SelfKeyed m) (hv : v.log_id = k) : SelfKeyed (dictInsert m k v) :=
  fun p hp => (mem_dictInsert m k v p hp).elim (fun h => hm p h)
    (fun h => by rw [h]; exact hv)

/-! ## Per-step merge-loop lemmas -/

theorem addTemplateLogs_find_none (id : Nat) :
    ∀ (tl : List DbLog) (m : List (Nat × LogRecord)),
      tl.filter (fun l => l.log_id == id) = [] →
      dictFind (addTemplateLogs m tl) id = dictFind m id := by
  intro tl
  induction tl with
  | nil => intro m _; rfl
  | cons log rest ih =>
    intro m h
    rw [List.filter_cons] at h
    split at h
    · exact absurd h (by simp)
    · rename_i hp
      have hne : log.log_id ≠ id := by simpa using hp
      simp only [addTemplateLogs]
      rw [ih _ h]
      by_cases h0 : log.log_id ≠ 0
      · rw [if_pos h0, dictFind_dictInsert_ne _ _ _ _ (Ne.symm hne)]
      · rw [if_neg h0]

theorem addTemplateLogs_find_single (id : Nat) (tlog : DbLog) (hid : id ≠ 0) :
    ∀ (tl : List DbLog) (m : List (Nat × LogRecord)),
      tl.filter (fun l => l.log_id == id) = [tlog] →
      dictFind (addTemplateLogs m tl) id = some (tmplRecord tlog) := by
  intro tl
  induction tl with
  | nil => intro m h; exact absurd h (by simp)
  | cons log rest ih =>
    intro m h
    rw [List.filter_cons] at h
    split at h
    · rename_i hp
      have hlid : log.log_id = id := by simpa using hp
      have hlog : log = tlog := (List.cons.injEq .. ▸ h).1
      have hrest : rest.filter (fun l => l.log_id == id) = [] := (List.cons.injEq .. ▸ h).2
      simp only [addTemplateLogs]
      rw [if_pos (by rw [hlid]; exact hid)]
      rw [addTemplateLogs_find_none id rest _ hrest, hlid, hlog,
        dictFind_dictInsert_self]
    · rename_i hp
      simp only [addTemplateLogs]
      exact ih _ h

theorem addSemanticLogs_find_none (id : Nat) :
    ∀ (sem : List LogRecord) (m : List (Nat × LogRecord)),
      sem.filter (fun r => r.log_id == id) = [] →
      dictFind (addSemanticLogs m sem) id = dictFind m id := by
  intro sem
  induction sem with
  | nil => intro m _; rfl
  | cons log rest ih =>
    intro m h
    rw [List.filter_cons] at h
    split at h
    · exact absurd h (by simp)
    · rename_i hp
      have hne0 : log.log_id ≠ id := by simpa using hp
      have hne : id ≠ log.log_id := Ne.symm hne0
      simp only [addSemanticLogs]
      rw [ih _ h]
      cases hdf : dictFind m log.log_id with
      | none =>
        simp only [hdf]
        rw [dictFind_dictInsert_ne _ _ _ _ hne]
      | some old =>
        simp only [hdf]
        by_cases hlt : old.similarity < log.similarity
        · rw [if_pos hlt, dictFind_dictInsert_ne _ _ _ _ hne]
        · rw [if_neg hlt]

theorem addSemanticLogs_find_single (id : Nat) (slog : LogRecord) :
    ∀ (sem : List LogRecord) (m : List (Nat × LogRecord)) (r0 : LogRecord),
      sem.filter (fun r => r.log_id == id) = [slog] →
      dictFind m id = some r0 →
      dictFind (addSemanticLogs m sem) id =
        some (if r0.similarity < slog.similarity then slog else r0) := by
  intro sem
  induction sem with
  | nil => intro m r0 h _; exact absurd h (by simp)
  | cons log rest ih =>
    intro m r0 h hm
    rw [List.filter_cons] at h
    split at h
    · rename_i hp
      have hlid : log.log_id = id := by simpa using hp
      have hlog : log = slog := (List.cons.injEq .. ▸ h).1
      have hrest : rest.filter (fun r => r.log_id == id) = [] := (List.cons.injEq .. ▸ h).2
      simp only [addSemanticLogs]
      rw [addSemanticLogs_find_none id rest _ hrest, hlid]
      simp only [hm]
      by_cases hlt : r0.similarity < log.similarity
      · rw [if_pos hlt, if_pos (hlog ▸ hlt), hlog, dictFind_dictInsert_self]
      · rw [if_neg hlt, if_neg (hlog ▸ hlt), hm]
    · rename_i hp
      have hne0 : log.log_id ≠ id := by simpa using hp
      have hne : id ≠ log.log_id := Ne.symm hne0
      simp only [addSemanticLogs]
      cases hdf : dictFind m log.log_id with
      | none =>
        simp only [hdf]
        exact ih _ r0 h (by rw [dictFind_dictInsert_ne _ _ _ _ hne]; exact hm)
      | some old =>
        simp only [hdf]
        by_cases hlt : old.similarity < log.similarity
        · rw [if_pos hlt]
          exact ih _ r0 h (by rw [dictFind_dictInsert_ne _ _ _ _ hne]; exact hm)
        · rw [if_neg hlt]
          exact ih _ r0 h hm

/-! SelfKeyed and key-uniqueness are preserved by all three merge loops. -/

theorem selfKeyed_addTemplateLogs :
    ∀ (tl : List DbLog) (m : List (Nat × LogRecord)),
      SelfKeyed m → SelfKeyed (addTemplateLogs m tl) := by
  intro tl
  induction tl with
  | nil => intro m hm; exact hm
  | cons log rest ih =>
    intro m hm
    simp only [addTemplateLogs]
    split
    · exact ih _ (selfKeyed_dictInsert _ _ _ hm rfl)
    · exact ih _ hm

theorem selfKeyed_addSemanticLogs :
    ∀ (sem : List LogRecord) (m : List (Nat × LogRecord)),
      SelfKeyed m → SelfKeyed (addSemanticLogs m sem) := by
  intro sem
  induction sem with
  | nil => intro m hm; exact hm
  | cons log rest ih =>
    intro m hm
    simp only [addSemanticLogs]
    cases hdf : dictFind m log.log_id with
    | none =>
      simp only [hdf]
      exact ih _ (selfKeyed_dictInsert _ _ _ hm rfl)
    | some old =>
      simp only [hdf]
      split
      · exact ih _ (selfKeyed_dictInsert _ _ _ hm rfl)
      · exact ih _ hm

theorem selfKeyed_addKeywordLogs :
    ∀ (kws : List DbLog) (m : List (Nat × LogRecord)),
      SelfKeyed m → SelfKeyed (addKeywordLogs m kws) := by
  intro kws
  induction kws with
  | nil => intro m hm; exact hm
  | cons log rest ih =>
    intro m hm
    simp only [addKeywordLogs]
    split
    · exact ih _ (selfKeyed_dictInsert _ _ _ hm rfl)
    · exact ih _ hm

theorem keysNodup_addTemplateLogs :
    ∀ (tl : List DbLog) (m : List (Nat × LogRecord)),
      (m.map Prod.fst).Nodup → ((addTemplateLogs m tl).map Prod.fst).Nodup := by
  intro tl
  induction tl with
  | nil => intro m hm; exact hm
  | cons log rest ih =>
    intro m hm
    simp only [addTemplateLogs]
    split
    · exact ih _ (keysNodup_dictInsert _ _ _ hm)
    · exact ih _ hm

theorem keysNodup_addSemanticLogs :
    ∀ (sem : List LogRecord) (m : List (Nat × LogRecord)),
      (m.map Prod.fst).Nodup → ((addSemanticLogs m sem).map Prod.fst).Nodup := by
  intro sem
  induction sem with
  | nil => intro m hm; exact hm
  | cons log rest ih =>
    intro m hm
    simp only [addSemanticLogs]
    cases hdf : dictFind m log.log_id with
    | none =>
      simp only [hdf]
      exact ih _ (keysNodup_dictInsert _ _ _ hm)
    | some old =>
      simp only [hdf]
      split
      · exact ih _ (keysNodup_dictInsert _ _ _ hm)
      · exact ih _ hm

theorem keysNodup_addKeywordLogs :
    ∀ (kws : List DbLog) (m : List (Nat × LogRecord)),
      (m.map Prod.fst).Nodup → ((addKeywordLogs m kws).map Prod.fst).Nodup := by
  intro kws
  induction kws with
  | nil => intro m hm; exact hm
  | cons log rest ih =>
    intro m hm
    simp only [addKeywordLogs]
    split
    · exact ih _ (keysNodup_dictInsert _ _ _ hm)
    · exact ih _ hm

theorem selfKeyed_combineLogs (tl : List DbLog) (sem : List LogRecord)
    (kws : List DbLog) : SelfKeyed (combineLogs tl sem kws) :=
  selfKeyed_addKeywordLogs kws _
    (selfKeyed_addSemanticLogs sem _
      (selfKeyed_addTemplateLogs tl [] (fun p hp => absurd hp (List.not_mem_nil p))))

theorem keysNodup_combineLogs (tl : List DbLog) (sem : List LogRecord)
    (kws : List DbLog) : ((combineLogs tl sem kws).map Prod.fst).Nodup :=
  keysNodup_addKeywordLogs kws _
    (keysNodup_addSemanticLogs sem _
      (keysNodup_addTemplateLogs tl [] (by simp)))

/-! ## Where merged entries come from -/

theorem mem_addTemplateLogs :
    ∀ (tl : List DbLog) (m : List (Nat × LogRecord)) (p : Nat × LogRecord),
      p ∈ addTemplateLogs m tl →
      p ∈ m ∨ (p.2).retrieval_method = "template" := by
  intro tl
  induction tl with
  | nil => intro m p hp; exact Or.inl hp
  | cons log rest ih =>
    intro m p hp
    simp only [addTemplateLogs] at hp
    split at hp
    · rcases ih _ p hp with h | h
      · rcases mem_dictInsert _ _ _ _ h with h' | h'
        · exact Or.inl h'
        · rw [h']
          exact Or.inr rfl
      · exact Or.inr h
    · exact ih _ p hp

theorem mem_addSemanticLogs :
    ∀ (sem : List LogRecord) (m : List (Nat × LogRecord)) (p : Nat × LogRecord),
      p ∈ addSemanticLogs m sem → p ∈ m ∨ p.2 ∈ sem := by
  intro sem
  induction sem with
  | nil => intro m p hp; exact Or.inl hp
  | cons log rest ih =>
    intro m p hp
    simp only [addSemanticLogs] at hp
    cases hdf : dictFind m log.log_id with
    | none =>
      simp only [hdf] at hp
      rcases ih _ p hp with h | h
      · rcases mem_dictInsert _ _ _ _ h with h' | h'
        · exact Or.inl h'
        · rw [h']
          exact Or.inr (List.mem_cons_self _ _)
      · exact Or.inr (List.mem_cons_of_mem _ h)
    | some old =>
      simp only [hdf] at hp
      split at hp
      · rcases ih _ p hp with h | h
        · rcases mem_dictInsert _ _ _ _ h with h' | h'
          · exact Or.inl h'
          · rw [h']
            exact Or.inr (List.mem_cons_self _ _)
        · exact Or.inr (List.mem_cons_of_mem _ h)
      · rcases ih _ p hp with h | h
        · exact Or.inl h
        · exact Or.inr (List.mem_cons_of_mem _ h)

theorem mem_addKeywordLogs :
    ∀ (kws : List DbLog) (m : List (Nat × LogRecord)) (p : Nat × LogRecord),
      p ∈ addKeywordLogs m kws →
      p ∈ m ∨ ∃ log ∈ kws, p.2 = kwRecord log := by
  intro kws
  induction kws with
  | nil => intro m p hp; exact Or.inl hp
  | cons log rest ih =>
    intro m p hp
    simp only [addKeywordLogs] at hp
    split at hp
    · rcases ih _ p hp with h | ⟨l, hl, hpl⟩
      · rcases mem_dictInsert _ _ _ _ h with h' | h'
        · exact Or.inl h'
        · rw [h']
          exact Or.inr ⟨log, List.mem_cons_self _ _, rfl⟩
      · exact Or.inr ⟨l, List.mem_cons_of_mem _ hl, hpl⟩
    · rcases ih _ p hp with h | ⟨l, hl, hpl⟩
      · exact Or.inl h
      · exact Or.inr ⟨l, List.mem_cons_of_mem _ hl, hpl⟩

theorem mem_keywordFold (search : String → List DbLog) :
    ∀ (kws : List String) (init : List DbLog) (x : DbLog),
      x ∈ kws.foldl (fun acc kw => acc ++ (search kw).take 5) init →
      x ∈ init ∨ ∃ kw ∈ kws, x ∈ (search kw).take 5 := by
  intro kws
  induction kws with
  | nil => intro init x h; exact Or.inl h
  | cons kw rest ih =>
    intro init x h
    simp only [List.foldl_cons] at h
    rcases ih _ x h with h' | ⟨kw', hkw', hx⟩
    · rcases List.mem_append.mp h' with h'' | h''
      · exact Or.inl h''
      · exact Or.inr ⟨kw, List.mem_cons_self _ _, h''⟩
    · exact Or.inr ⟨kw', List.mem_cons_of_mem _ hkw', hx⟩

/-- Every returned record is a value of the merged map. -/
theorem mem_retrieve (q : String) (tl : List DbLog) (sem : List LogRecord)
    (search : String → List DbLog) (k : Nat) (r : LogRecord)
    (h : r ∈ retrieve_relevant_logs q tl sem search k) :
    r ∈ (combineLogs tl sem (keywordFallback q tl sem search)).map Prod.snd := by
  unfold retrieve_relevant_logs at h
  exact ((List.perm_insertionSort simGE _).mem_iff).mp (List.take_subset _ _ h)

theorem values_log_id_eq_keys :
    ∀ (m : List (Nat × LogRecord)), SelfKeyed m →
      (m.map Prod.snd).map (fun r => r.log_id) = m.map Prod.fst := by
  intro m
  induction m with
  | nil => intro _; rfl
  | cons p rest ih =>
    intro h
    simp only [List.map_cons]
    rw [h p (List.mem_cons_self _ _), ih (fun q hq => h q (List.mem_cons_of_mem _ hq))]

/-- C2: the merged result set is deduplicated by `log_id`; an entry reachable
both via template correlation and via semantic similarity is kept once, with
the larger of the two scores and the method label that produced it
(strictly larger semantic scores win, ties keep the template record). -/
theorem C2_merge_dedup (q : String) (tl : List DbLog) (sem : List LogRecord)
    (search : String → List DbLog) (k : Nat) (id : Nat) (tlog : DbLog) (slog : LogRecord)
    (hid : id ≠ 0)
    (htl : tl.filter (fun l => l.log_id == id) = [tlog])
    (hsem : sem.filter (fun r => r.log_id == id) = [slog])
    (hsm : slog.retrieval_method = "semantic") :
    (dictFind (combineLogs tl sem (keywordFallback q tl sem search)) id =
      some (if (tmplRecord tlog).similarity < slog.similarity then slog
            else tmplRecord tlog)) ∧
    ((if (tmplRecord tlog).similarity < slog.similarity then slog
      else tmplRecord tlog).similarity = max (mkRat 9 10) slog.similarity) ∧
    ((if (tmplRecord tlog).similarity < slog.similarity then slog
      else tmplRecord tlog).retrieval_method =
        if mkRat 9 10 < slog.similarity then "semantic" else "template") ∧
    (∀ r ∈ retrieve_relevant_logs q tl sem search k, r.log_id = id →
      r = (if (tmplRecord tlog).similarity < slog.similarity then slog
           else tmplRecord tlog)) ∧
    ((retrieve_relevant_logs q tl sem search k).map (fun r => r.log_id)).Nodup := by
  have htlne : tl ≠ [] := by
    intro hnil
    rw [hnil] at htl
    exact absurd htl (by simp)
  have hkw : keywordFallback q tl sem search = [] := by
    unfold keywordFallback
    rw [if_neg (fun hc => htlne hc.2)]
  have hsim9 : (tmplRecord tlog).similarity = mkRat 9 10 := rfl
  have hfind : dictFind (combineLogs tl sem (keywordFallback q tl sem search)) id =
      some (if (tmplRecord tlog).similarity < slog.similarity then slog
            else tmplRecord tlog) := by
    rw [hkw]
    show dictFind (addKeywordLogs (addSemanticLogs (addTemplateLogs [] tl) sem) []) id = _
    exact addSemanticLogs_find_single id slog sem _ (tmplRecord tlog) hsem
      (addTemplateLogs_find_single id tlog hid tl [] htl)
  refine ⟨hfind, ?_, ?_, ?_, ?_⟩
  · by_cases hlt : (tmplRecord tlog).similarity < slog.similarity
    · rw [if_pos hlt, max_eq_right (le_of_lt (hsim9 ▸ hlt))]
    · rw [if_neg hlt, hsim9, max_eq_left (le_of_not_lt (hsim9 ▸ hlt))]
  · by_cases hlt : (tmplRecord tlog).similarity < slog.similarity
    · rw [if_pos hlt, if_pos (hsim9 ▸ hlt), hsm]
    · rw [if_neg hlt, if_neg (hsim9 ▸ hlt)]
      rfl
  · intro r hr hrid
    have hmem := mem_retrieve q tl sem search k r hr
    rcases List.mem_map.mp hmem with ⟨p, hp, hps⟩
    have hself := selfKeyed_combineLogs tl sem (keywordFallback q tl sem search) p hp
    have hpid : p = (id, r) := by
      rw [← hps] at hrid
      obtain ⟨pk, pv⟩ := p
      simp only [Prod.mk.injEq]
      exact ⟨by rw [← hrid]; exact hself.symm, hps⟩
    rw [hpid] at hp
    have := dictFind_of_mem _ id r (keysNodup_combineLogs tl sem _) hp
    rw [hfind] at this
    exact (Option.some.injEq .. ▸ this).symm
  · have hvals := values_log_id_eq_keys _
      (selfKeyed_combineLogs tl sem (keywordFallback q tl sem search))
    have hkeys : (((combineLogs tl sem (keywordFallback q tl sem search)).map
        Prod.snd).map (fun r => r.log_id)).Nodup := by
      rw [hvals]
      exact keysNodup_combineLogs tl sem _
    have hperm : List.Perm
        ((List.insertionSort simGE ((combineLogs tl sem
          (keywordFallback q tl sem search)).map Prod.snd)).map (fun r => r.log_id))
        (((combineLogs tl sem (keywordFallback q tl sem search)).map Prod.snd).map
          (fun r => r.log_id)) :=
      (List.perm_insertionSort simGE _).map _
    have hsorted : ((List.insertionSort simGE ((combineLogs tl sem
        (keywordFallback q tl sem search)).map Prod.snd)).map
          (fun r => r.log_id)).Nodup :=
      hperm.nodup_iff.mpr hkeys
    unfold retrieve_relevant_logs
    exact ((List.take_sublist k _).map _).nodup hsorted

/-- Witness for C2: an entry reachable with template score `0.9` and semantic
score `0.95` is returned exactly once, with method `semantic` and score
`0.95`. -/
theorem C2_merge_dedup_witness :
    (retrieve_relevant_logs "x" [⟨1, 100, "e1"⟩] [⟨1, 100, "e1", mkRat 19 20, "semantic"⟩]
        (fun _ => []) 5 = [⟨1, 100, "e1", mkRat 19 20, "semantic"⟩]) ∧
    dictFind (combineLogs [⟨1, 100, "e1"⟩] [⟨1, 100, "e1", mkRat 19 20, "semantic"⟩]
        (keywordFallback "x" [⟨1, 100, "e1"⟩] [⟨1, 100, "e1", mkRat 19 20, "semantic"⟩]
          (fun _ => []))) 1 =
      some (if (tmplRecord ⟨1, 100, "e1"⟩).similarity <
              (⟨1, 100, "e1", mkRat 19 20, "semantic"⟩ : LogRecord).similarity
            then (⟨1, 100, "e1", mkRat 19 20, "semantic"⟩ : LogRecord)
            else tmplRecord ⟨1, 100, "e1"⟩) := by
  refine ⟨by decide, (C2_merge_dedup "x" [⟨1, 100, "e1"⟩]
    [⟨1, 100, "e1", mkRat 19 20, "semantic"⟩] (fun _ => []) 5 1 ⟨1, 100, "e1"⟩
    ⟨1, 100, "e1", mkRat 19 20, "semantic"⟩ (by decide) (by decide) (by decide) rfl).1⟩

/-- C3 (counterexample): two keyword-fallback results carry the same score
`0.5`, yet the older entry (timestamp 10) is returned before the newer one
(timestamp 20) — the final sort uses only the similarity key, so equal scores
are NOT re-ordered by recency. -/
theorem C3_counterexample :
    retrieve_relevant_logs "alpha beta" [] []
        (fun kw => if kw = "alpha" then [⟨1, 10, "L1"⟩]
                   else if kw = "beta" then [⟨2, 20, "L2"⟩] else []) 5 =
      [⟨1, 10, "L1", mkRat 1 2, "keyword"⟩, ⟨2, 20, "L2", mkRat 1 2, "keyword"⟩] ∧
    (⟨1, 10, "L1", mkRat 1 2, "keyword"⟩ : LogRecord).similarity =
      (⟨2, 20, "L2", mkRat 1 2, "keyword"⟩ : LogRecord).similarity ∧
    ¬ ((⟨2, 20, "L2", mkRat 1 2, "keyword"⟩ : LogRecord).timestamp ≤
       (⟨1, 10, "L1", mkRat 1 2, "keyword"⟩ : LogRecord).timestamp) := by
  decide

/-- C3 (amended): the final output of `retrieve_relevant_logs` is at most
`top_k` results in non-increasing score order; equal scores keep the stable
sort's merge order and are not re-ranked by timestamp. -/
theorem C3_amended (q : String) (tl : List DbLog) (sem : List LogRecord)
    (search : String → List DbLog) (k : Nat) :
    List.Pairwise simGE (retrieve_relevant_logs q tl sem search k) ∧
    (retrieve_relevant_logs q tl sem search k).length ≤ k := by
  constructor
  · unfold retrieve_relevant_logs
    exact (List.sorted_insertionSort simGE _).sublist (List.take_sublist k _)
  · unfold retrieve_relevant_logs
    exact List.length_take_le _ _

/-- C4: the keyword fallback contributes results exactly when the template
and semantic steps together produced none; it uses at most 3 extracted
keywords (5 hits each), and every contributed record carries score `0.5` and
method `keyword`. -/
theorem C4_keyword_fallback (q : String) (search : String → List DbLog) (k : Nat) :
    (∀ (tl : List DbLog) (sem : List LogRecord), (tl ≠ [] ∨ sem ≠ []) →
       (∀ s ∈ sem, s.retrieval_method = "semantic") →
       ∀ r ∈ retrieve_relevant_logs q tl sem search k, r.retrieval_method ≠ "keyword") ∧
    (∀ r ∈ retrieve_relevant_logs q [] [] search k,
       r.similarity = mkRat 1 2 ∧ r.retrieval_method = "keyword" ∧
       ∃ kw ∈ (extractKeywords q).take 3, ∃ log ∈ (search kw).take 5,
         r = kwRecord log) ∧
    ((extractKeywords q).take 3).length ≤ 3 := by
  refine ⟨?_, ?_, List.length_take_le _ _⟩
  · intro tl sem hne hsm r hr
    have hkw : keywordFallback q tl sem search = [] := by
      unfold keywordFallback
      rw [if_neg ?_]
      rintro ⟨hs, ht⟩
      rcases hne with h | h
      · exact h ht
      · exact h hs
    have hmem := mem_retrieve q tl sem search k r hr
    rw [hkw] at hmem
    rcases List.mem_map.mp hmem with ⟨p, hp, rfl⟩
    have hp' : p ∈ addSemanticLogs (addTemplateLogs [] tl) sem := hp
    rcases mem_addSemanticLogs sem _ p hp' with h | h
    · rcases mem_addTemplateLogs tl _ p h with h' | h'
      · exact absurd h' (List.not_mem_nil p)
      · rw [h']
        decide
    · rw [hsm p.2 h]
      decide
  · intro r hr
    have hmem := mem_retrieve q [] [] search k r hr
    rcases List.mem_map.mp hmem with ⟨p, hp, rfl⟩
    have hp' : p ∈ addKeywordLogs [] (keywordFallback q [] [] search) := hp
    rcases mem_addKeywordLogs _ _ p hp' with h | ⟨log, hlog, hpl⟩
    · exact absurd h (List.not_mem_nil p)
    · have hkw : keywordFallback q [] [] search =
          ((extractKeywords q).take 3).foldl
            (fun acc kw => acc ++ (search kw).take 5) [] := by
        unfold keywordFallback
        rw [if_pos ⟨rfl, rfl⟩]
      rw [hkw] at hlog
      rcases mem_keywordFold search _ [] log hlog with h' | ⟨kw, hkw', hl⟩
      · exact absurd h' (List.not_mem_nil log)
      · exact ⟨by rw [hpl]; rfl, by rw [hpl]; rfl, kw, hkw', log, hl, hpl⟩

/-- Witness for C4: with no template and no semantic results, both stored
entries come back via keyword fallback with score `0.5`; with a template
result present, no returned record carries the keyword method. -/
theorem C4_keyword_fallback_witness :
    ((⟨1, 10, "E1", mkRat 1 2, "keyword"⟩ : LogRecord) ∈
      retrieve_relevant_logs "connection failed" [] []
        (fun kw => if kw = "connection" then [⟨1, 10, "E1"⟩, ⟨2, 20, "E2"⟩]
                   else if kw = "failed" then [⟨2, 20, "E2"⟩, ⟨1, 10, "E1"⟩] else []) 5) ∧
    ((⟨1, 10, "E1", mkRat 1 2, "keyword"⟩ : LogRecord).similarity = mkRat 1 2 ∧
     (⟨1, 10, "E1", mkRat 1 2, "keyword"⟩ : LogRecord).retrieval_method = "keyword" ∧
     ∃ kw ∈ (extractKeywords "connection failed").take 3,
       ∃ log ∈ ((fun kw => if kw = "connection" then [⟨1, 10, "E1"⟩, ⟨2, 20, "E2"⟩]
                   else if kw = "failed" then [⟨2, 20, "E2"⟩, ⟨1, 10, "E1"⟩]
                   else ([] : List DbLog)) kw).take 5,
         (⟨1, 10, "E1", mkRat 1 2, "keyword"⟩ : LogRecord) = kwRecord log) ∧
    (tmplRecord ⟨1, 100, "e9"⟩).retrieval_method ≠ "keyword" := by
  refine ⟨by decide, ?_, ?_⟩
  · exact (C4_keyword_fallback "connection failed"
      (fun kw => if kw = "connection" then [⟨1, 10, "E1"⟩, ⟨2, 20, "E2"⟩]
                 else if kw = "failed" then [⟨2, 20, "E2"⟩, ⟨1, 10, "E1"⟩] else []) 5).2.1
      ⟨1, 10, "E1", mkRat 1 2, "keyword"⟩ (by decide)
  · exact (C4_keyword_fallback "q" (fun _ => []) 5).1 [⟨1, 100, "e9"⟩] []
      (Or.inl (by decide)) (fun s hs => absurd hs (List.not_mem_nil s))
      (tmplRecord ⟨1, 100, "e9"⟩) (by decide)

end LogResponder
